import Mathlib

/-!
Shallow embedding of the moveslice crate (src/lib.rs).

The crate offers one operation: relocate a contiguous chunk of a slice
inside the slice, implemented with split_at_mut and
rotate_left / rotate_right.  Slices are modelled as Lean lists, usize
indices as Nat.  Each call outcome records the final state of the
sequence, distinguishing a normal return, a recoverable Err value of
try_moveslice, and a Rust panic (either an explicit panic of the
panicking variant or a bounds fault raised by split_at_mut or rotate).
-/

namespace Moveslice

variable {T : Type}

/-- Rust std ops Bound: the forms a range bound can take. -/
inductive Bound where
  | included : Nat → Bound
  | excluded : Nat → Bound
  | unbounded : Bound
deriving DecidableEq

/-- A RangeBounds argument: the pair of its start bound and end bound. -/
structure RangeSpec where
  startBound : Bound
  endBound : Bound
deriving DecidableEq

/-- Outcome of one call together with the final state of the sequence:
ok is a normal return, err is the recoverable Err of try_moveslice,
fatal is a Rust panic. -/
inductive MoveResult (T : Type) where
  | ok : List T → MoveResult T
  | err : String → List T → MoveResult T
  | fatal : String → List T → MoveResult T
deriving DecidableEq

/-- Message of the bounds fault raised by split_at_mut when the split
index exceeds the slice length: a generic fault, not a typed error of
this crate. -/
def splitFaultMsg : String := "split index out of bounds"

/-- Message of the bounds fault raised by rotate_left or rotate_right
when the rotation amount exceeds the slice length. -/
def rotateFaultMsg : String := "rotate amount out of bounds"

/-- Message used when the start bound of the range is not Included. -/
def startBoundMsg : String := "A startbound is required."

/-- Message used when the end bound of the range is Unbounded. -/
def endBoundMsg : String := "An endbound, excluded or included, is required."

/-- The message built in the rightward branch when the destination
check fails, with the same three format arguments as the source. -/
def beyondMsg (len destination endIdx : Nat) : String :=
  "Direction goes beyond slice [len = " ++ toString len ++ ", destination = " ++
    toString destination ++ ".." ++ toString endIdx ++ "]. "

/-- Rust slice rotate_left k: the element previously at index k becomes
the first element. -/
def rotateLeft (s : List T) (k : Nat) : List T := s.drop k ++ s.take k

/-- Rust slice rotate_right k: rotate_left by length minus k. -/
def rotateRight (s : List T) (k : Nat) : List T :=
  s.drop (s.length - k) ++ s.take (s.length - k)

/-- Body of try_moveslice after bound normalization, lines 158 to 184 of
src/lib.rs, with chunk the already normalized half open pair.  Every
split_at_mut and rotate call is guarded by the bounds fault it would
raise in Rust. -/
def tryCore (slice : List T) (chunk : Nat × Nat) (destination : Nat) : MoveResult T :=
  if destination > chunk.1 then
    let chunksize := chunk.2 - chunk.1
    let index1 := chunk.1
    let index2 := destination + chunksize - index1
    if slice.length < index1 then MoveResult.fatal splitFaultMsg slice
    else
      let mid := slice.drop index1
      if destination + chunksize ≤ mid.length then
        if mid.length < index2 then MoveResult.fatal splitFaultMsg slice
        else
          let mid2 := mid.take index2
          if mid2.length < chunk.2 - chunk.1 then MoveResult.fatal rotateFaultMsg slice
          else
            MoveResult.ok (slice.take index1 ++
              (rotateLeft mid2 (chunk.2 - chunk.1) ++ mid.drop index2))
      else
        MoveResult.err (beyondMsg mid.length destination (destination + chunksize)) slice
  else if destination < chunk.1 then
    let index1 := destination
    let index2 := chunk.2 - destination
    if slice.length < index1 then MoveResult.fatal splitFaultMsg slice
    else
      let mid := slice.drop index1
      if mid.length < index2 then MoveResult.fatal splitFaultMsg slice
      else
        let mid2 := mid.take index2
        if mid2.length < chunk.2 - chunk.1 then MoveResult.fatal rotateFaultMsg slice
        else
          MoveResult.ok (slice.take index1 ++
            (rotateRight mid2 (chunk.2 - chunk.1) ++ mid.drop index2))
  else MoveResult.ok slice

/-- Body of moveslice after bound normalization, lines 110 to 134 of
src/lib.rs: identical to tryCore except that the failed destination
check panics instead of returning Err. -/
def panicCore (slice : List T) (chunk : Nat × Nat) (destination : Nat) : MoveResult T :=
  if destination > chunk.1 then
    let chunksize := chunk.2 - chunk.1
    let index1 := chunk.1
    let index2 := destination + chunksize - index1
    if slice.length < index1 then MoveResult.fatal splitFaultMsg slice
    else
      let mid := slice.drop index1
      if destination + chunksize ≤ mid.length then
        if mid.length < index2 then MoveResult.fatal splitFaultMsg slice
        else
          let mid2 := mid.take index2
          if mid2.length < chunk.2 - chunk.1 then MoveResult.fatal rotateFaultMsg slice
          else
            MoveResult.ok (slice.take index1 ++
              (rotateLeft mid2 (chunk.2 - chunk.1) ++ mid.drop index2))
      else
        MoveResult.fatal (beyondMsg mid.length destination (destination + chunksize)) slice
  else if destination < chunk.1 then
    let index1 := destination
    let index2 := chunk.2 - destination
    if slice.length < index1 then MoveResult.fatal splitFaultMsg slice
    else
      let mid := slice.drop index1
      if mid.length < index2 then MoveResult.fatal splitFaultMsg slice
      else
        let mid2 := mid.take index2
        if mid2.length < chunk.2 - chunk.1 then MoveResult.fatal rotateFaultMsg slice
        else
          MoveResult.ok (slice.take index1 ++
            (rotateRight mid2 (chunk.2 - chunk.1) ++ mid.drop index2))
  else MoveResult.ok slice

/-- try_moveslice, lines 137 to 185 of src/lib.rs: normalize the range
bounds, returning Err for a start bound that is not Included and for an
Unbounded end bound, then run the core. -/
def try_moveslice (slice : List T) (bounds : RangeSpec) (destination : Nat) : MoveResult T :=
  match bounds.startBound with
  | Bound.included x =>
    match bounds.endBound with
    | Bound.excluded y => tryCore slice (x, y) destination
    | Bound.included y => tryCore slice (x, y + 1) destination
    | Bound.unbounded => MoveResult.err endBoundMsg slice
  | Bound.excluded _ => MoveResult.err startBoundMsg slice
  | Bound.unbounded => MoveResult.err startBoundMsg slice

/-- moveslice, lines 89 to 135 of src/lib.rs: same normalization but the
two usage errors panic instead of returning Err. -/
def moveslice (slice : List T) (bounds : RangeSpec) (destination : Nat) : MoveResult T :=
  match bounds.startBound with
  | Bound.included x =>
    match bounds.endBound with
    | Bound.excluded y => panicCore slice (x, y) destination
    | Bound.included y => panicCore slice (x, y + 1) destination
    | Bound.unbounded => MoveResult.fatal endBoundMsg slice
  | Bound.excluded _ => MoveResult.fatal startBoundMsg slice
  | Bound.unbounded => MoveResult.fatal startBoundMsg slice

/-! Helper lemmas about the rotation of a sub-span. -/

theorem rotateLeft_perm (s : List T) (k : Nat) : (rotateLeft s k).Perm s := by
  unfold rotateLeft
  conv_rhs => rw [← List.take_append_drop k s]
  exact List.perm_append_comm

theorem rotateLeft_length (s : List T) (k : Nat) :
    (rotateLeft s k).length = s.length := (rotateLeft_perm s k).length_eq

theorem rotateRight_eq_rotateLeft (s : List T) (k : Nat) :
    rotateRight s k = rotateLeft s (s.length - k) := rfl

theorem shuffle_perm (l : List T) (a m k : Nat) :
    (l.take a ++ (rotateLeft ((l.drop a).take m) k ++ (l.drop a).drop m)).Perm l := by
  have h1 : (rotateLeft ((l.drop a).take m) k ++ (l.drop a).drop m).Perm (l.drop a) := by
    have h2 := (rotateLeft_perm ((l.drop a).take m) k).append_right ((l.drop a).drop m)
    rw [List.take_append_drop] at h2
    exact h2
  have h3 := h1.append_left (l.take a)
  rw [List.take_append_drop] at h3
  exact h3

theorem span_length (l : List T) (a m : Nat) (h : a + m ≤ l.length) :
    ((l.drop a).take m).length = m := by
  simp [List.length_take, List.length_drop]
  omega

theorem span_getElem (l : List T) (a m p : Nat) (hp : p < m) :
    ((l.drop a).take m)[p]? = l[a + p]? := by
  rw [List.getElem?_take_of_lt hp, List.getElem?_drop]

theorem rotateLeft_getElem (s : List T) (k p : Nat) (hk : k ≤ s.length) :
    (rotateLeft s k)[p]? =
      if p < s.length - k then s[p + k]?
      else if p < s.length then s[p + k - s.length]?
      else none := by
  unfold rotateLeft
  have hdl : (s.drop k).length = s.length - k := by simp [List.length_drop]
  by_cases h1 : p < s.length - k
  · rw [if_pos h1, List.getElem?_append_left (by omega), List.getElem?_drop]
    have : k + p = p + k := by omega
    rw [this]
  · rw [if_neg h1, List.getElem?_append_right (by omega), hdl]
    by_cases h2 : p < s.length
    · rw [if_pos h2, List.getElem?_take_of_lt (by omega)]
      have : p - (s.length - k) = p + k - s.length := by omega
      rw [this]
    · rw [if_neg h2]
      apply List.getElem?_eq_none
      simp [List.length_take, List.length_drop]
      omega

theorem shuffle_getElem (l : List T) (a m k j : Nat) (ham : a + m ≤ l.length) (hk : k ≤ m) :
    (l.take a ++ (rotateLeft ((l.drop a).take m) k ++ (l.drop a).drop m))[j]? =
      if j < a then l[j]?
      else if j < a + (m - k) then l[j + k]?
      else if j < a + m then l[j + k - m]?
      else l[j]? := by
  have hta : (l.take a).length = a := by simp [List.length_take]; omega
  have hsl : ((l.drop a).take m).length = m := span_length l a m ham
  have hrl : (rotateLeft ((l.drop a).take m) k).length = m := by
    rw [rotateLeft_length, hsl]
  by_cases h1 : j < a
  · rw [if_pos h1, List.getElem?_append_left (by omega), List.getElem?_take_of_lt h1]
  · rw [if_neg h1, List.getElem?_append_right (by omega), hta]
    by_cases h2 : j < a + m
    · rw [List.getElem?_append_left (by omega),
          rotateLeft_getElem _ _ _ (by omega), hsl]
      by_cases h3 : j < a + (m - k)
      · rw [if_pos h3, if_pos (by omega), span_getElem l a m _ (by omega)]
        have : a + (j - a + k) = j + k := by omega
        rw [this]
      · rw [if_neg h3, if_neg (by omega), if_pos (by omega),
            span_getElem l a m _ (by omega)]
        have : a + (j - a + k - m) = j + k - m := by omega
        rw [this, if_pos h2]
    · rw [if_neg (by omega), if_neg h2, List.getElem?_append_right (by omega), hrl,
          List.drop_drop, List.getElem?_drop]
      have : a + m + (j - a - m) = j := by omega
      rw [this]

/-! Evaluation lemmas for the three branches of the core. -/

theorem tryCore_left (l : List T) (c0 c1 d : Nat) (hd : d < c0) (hc : c0 ≤ c1)
    (hn : c1 ≤ l.length) :
    tryCore l (c0, c1) d = MoveResult.ok (l.take d ++
      (rotateRight ((l.drop d).take (c1 - d)) (c1 - c0) ++ (l.drop d).drop (c1 - d))) := by
  simp only [tryCore, List.length_drop, List.length_take]
  rw [if_neg (by omega : ¬ d > c0), if_pos hd, if_neg (by omega : ¬ l.length < d),
      if_neg (by omega : ¬ l.length - d < c1 - d),
      if_neg (by omega : ¬ min (c1 - d) (l.length - d) < c1 - c0)]

theorem panicCore_left (l : List T) (c0 c1 d : Nat) (hd : d < c0) (hc : c0 ≤ c1)
    (hn : c1 ≤ l.length) :
    panicCore l (c0, c1) d = MoveResult.ok (l.take d ++
      (rotateRight ((l.drop d).take (c1 - d)) (c1 - c0) ++ (l.drop d).drop (c1 - d))) := by
  simp only [panicCore, List.length_drop, List.length_take]
  rw [if_neg (by omega : ¬ d > c0), if_pos hd, if_neg (by omega : ¬ l.length < d),
      if_neg (by omega : ¬ l.length - d < c1 - d),
      if_neg (by omega : ¬ min (c1 - d) (l.length - d) < c1 - c0)]

theorem tryCore_left_fault (l : List T) (c0 c1 d : Nat) (hd : d < c0)
    (hn : l.length < c1) :
    tryCore l (c0, c1) d = MoveResult.fatal splitFaultMsg l := by
  simp only [tryCore, List.length_drop, List.length_take]
  rw [if_neg (by omega : ¬ d > c0), if_pos hd]
  by_cases hdn : l.length < d
  · rw [if_pos hdn]
  · rw [if_neg hdn, if_pos (by omega : l.length - d < c1 - d)]

theorem panicCore_left_fault (l : List T) (c0 c1 d : Nat) (hd : d < c0)
    (hn : l.length < c1) :
    panicCore l (c0, c1) d = MoveResult.fatal splitFaultMsg l := by
  simp only [panicCore, List.length_drop, List.length_take]
  rw [if_neg (by omega : ¬ d > c0), if_pos hd]
  by_cases hdn : l.length < d
  · rw [if_pos hdn]
  · rw [if_neg hdn, if_pos (by omega : l.length - d < c1 - d)]

theorem tryCore_noop (l : List T) (c0 c1 : Nat) :
    tryCore l (c0, c1) c0 = MoveResult.ok l := by
  simp only [tryCore]
  rw [if_neg (by omega : ¬ c0 > c0), if_neg (by omega : ¬ c0 < c0)]

theorem panicCore_noop (l : List T) (c0 c1 : Nat) :
    panicCore l (c0, c1) c0 = MoveResult.ok l := by
  simp only [panicCore]
  rw [if_neg (by omega : ¬ c0 > c0), if_neg (by omega : ¬ c0 < c0)]

/-- Inversion of a successful tryCore call on a well formed chunk: the
three branches with the facts each one guarantees. -/
theorem tryCore_ok_cases (l l2 : List T) (c0 c1 d : Nat)
    (h : tryCore l (c0, c1) d = MoveResult.ok l2) :
    (c0 < d ∧ d + (c1 - c0) ≤ l.length ∧
      l2 = l.take c0 ++ (rotateLeft ((l.drop c0).take (d + (c1 - c0) - c0)) (c1 - c0) ++
        (l.drop c0).drop (d + (c1 - c0) - c0))) ∨
    (d < c0 ∧
      l2 = l.take d ++ (rotateRight ((l.drop d).take (c1 - d)) (c1 - c0) ++
        (l.drop d).drop (c1 - d))) ∨
    (d = c0 ∧ l2 = l) := by
  simp only [tryCore, List.length_drop, List.length_take] at h
  split at h
  next hgt =>
    left
    split at h
    next => exact (MoveResult.noConfusion h)
    next hc0len =>
      split at h
      next hchk =>
        split at h
        next => exact (MoveResult.noConfusion h)
        next =>
          split at h
          next => exact (MoveResult.noConfusion h)
          next =>
            injection h with h4
            exact ⟨hgt, by omega, h4.symm⟩
      next => exact (MoveResult.noConfusion h)
  next hngt =>
    split at h
    next hlt =>
      right; left
      split at h
      next => exact (MoveResult.noConfusion h)
      next =>
        split at h
        next => exact (MoveResult.noConfusion h)
        next =>
          split at h
          next => exact (MoveResult.noConfusion h)
          next =>
            injection h with h4
            exact ⟨hlt, h4.symm⟩
    next hnlt =>
      injection h with h4
      right; right
      exact ⟨by omega, h4.symm⟩

/-- Every Err return of the core leaves the sequence in its initial
state: each Err site of the source is reached before any rotation. -/
theorem tryCore_err_state (l : List T) (c : Nat × Nat) (d : Nat) (msg : String) (l2 : List T)
    (h : tryCore l c d = MoveResult.err msg l2) : l2 = l := by
  simp only [tryCore] at h
  split at h
  next =>
    split at h
    next => exact (MoveResult.noConfusion h)
    next =>
      split at h
      next =>
        split at h
        next => exact (MoveResult.noConfusion h)
        next =>
          split at h
          next => exact (MoveResult.noConfusion h)
          next => exact (MoveResult.noConfusion h)
      next =>
        injection h with h1 h2
        exact h2.symm
  next =>
    split at h
    next =>
      split at h
      next => exact (MoveResult.noConfusion h)
      next =>
        split at h
        next => exact (MoveResult.noConfusion h)
        next =>
          split at h
          next => exact (MoveResult.noConfusion h)
          next => exact (MoveResult.noConfusion h)
    next => exact (MoveResult.noConfusion h)

/-! Claim theorems. -/

/-- Claim C1: for every sequence, every well formed chunk with
c0 ≤ c1 ≤ length, and every destination for which try_moveslice
succeeds, the chunk elements occupy exactly the positions from the
destination on, in their original relative order; the elements that
were between the chunk and the destination are shifted by exactly the
chunk size to fill the vacated space; every element outside the
affected span keeps its position; and the result is a permutation of
the original sequence of the same length. -/
theorem C1_move_invariant (l l2 : List T) (c0 c1 d : Nat)
    (hc : c0 ≤ c1) (hn : c1 ≤ l.length)
    (hok : try_moveslice l ⟨Bound.included c0, Bound.excluded c1⟩ d = MoveResult.ok l2) :
    l2.length = l.length ∧ l2.Perm l ∧
    (∀ i, i < c1 - c0 → l2[d + i]? = l[c0 + i]?) ∧
    (c0 < d → ∀ j, c1 ≤ j → j < d + (c1 - c0) → l2[j - (c1 - c0)]? = l[j]?) ∧
    (d < c0 → ∀ j, d ≤ j → j < c0 → l2[j + (c1 - c0)]? = l[j]?) ∧
    (∀ j, j < min c0 d → l2[j]? = l[j]?) ∧
    (∀ j, max c1 (d + (c1 - c0)) ≤ j → l2[j]? = l[j]?) := by
  have hcore : tryCore l (c0, c1) d = MoveResult.ok l2 := hok
  rcases tryCore_ok_cases l l2 c0 c1 d hcore with
    ⟨hgt, hbound, hl2⟩ | ⟨hlt, hl2⟩ | ⟨heq, hl2⟩
  · subst hl2
    have hham : c0 + (d + (c1 - c0) - c0) ≤ l.length := by omega
    have hkk : c1 - c0 ≤ d + (c1 - c0) - c0 := by omega
    refine ⟨(shuffle_perm l c0 _ _).length_eq, shuffle_perm l c0 _ _, ?_, ?_, ?_, ?_, ?_⟩
    · intro i hi
      rw [shuffle_getElem l c0 _ _ (d + i) hham hkk, if_neg (by omega), if_neg (by omega),
          if_pos (by omega)]
      have he : d + i + (c1 - c0) - (d + (c1 - c0) - c0) = c0 + i := by omega
      rw [he]
    · intro _ j hj1 hj2
      rw [shuffle_getElem l c0 _ _ (j - (c1 - c0)) hham hkk, if_neg (by omega),
          if_pos (by omega)]
      have he : j - (c1 - c0) + (c1 - c0) = j := by omega
      rw [he]
    · exact fun h => absurd h (by omega)
    · intro j hj
      rw [shuffle_getElem l c0 _ _ j hham hkk, if_pos (by omega)]
    · intro j hj
      rw [shuffle_getElem l c0 _ _ j hham hkk, if_neg (by omega), if_neg (by omega),
          if_neg (by omega)]
  · have hsl : ((l.drop d).take (c1 - d)).length = c1 - d := span_length l d (c1 - d) (by omega)
    rw [rotateRight_eq_rotateLeft, hsl] at hl2
    subst hl2
    have hham : d + (c1 - d) ≤ l.length := by omega
    have hkk : c1 - d - (c1 - c0) ≤ c1 - d := by omega
    refine ⟨(shuffle_perm l d _ _).length_eq, shuffle_perm l d _ _, ?_, ?_, ?_, ?_, ?_⟩
    · intro i hi
      rw [shuffle_getElem l d _ _ (d + i) hham hkk, if_neg (by omega), if_pos (by omega)]
      have he : d + i + (c1 - d - (c1 - c0)) = c0 + i := by omega
      rw [he]
    · exact fun h => absurd h (by omega)
    · intro _ j hj1 hj2
      rw [shuffle_getElem l d _ _ (j + (c1 - c0)) hham hkk, if_neg (by omega),
          if_neg (by omega), if_pos (by omega)]
      have he : j + (c1 - c0) + (c1 - d - (c1 - c0)) - (c1 - d) = j := by omega
      rw [he]
    · intro j hj
      rw [shuffle_getElem l d _ _ j hham hkk, if_pos (by omega)]
    · intro j hj
      rw [shuffle_getElem l d _ _ j hham hkk, if_neg (by omega), if_neg (by omega),
          if_neg (by omega)]
  · subst hl2
    subst heq
    exact ⟨rfl, List.Perm.refl _, fun i _ => rfl, fun h => absurd h (by omega),
      fun h => absurd h (by omega), fun j _ => rfl, fun j _ => rfl⟩

/-- Witness for C1 at a concrete leftward move: on [1,2,3,4,5] the call
with chunk 1..3 and destination 0 returns [2,3,1,4,5], whose length and
first element the theorem pins down. -/
theorem C1_move_invariant_witness :
    ([2,3,1,4,5] : List Nat).length = ([1,2,3,4,5] : List Nat).length ∧
    ([2,3,1,4,5] : List Nat)[0]? = ([1,2,3,4,5] : List Nat)[1]? := by
  have h := C1_move_invariant ([1,2,3,4,5] : List Nat) [2,3,1,4,5] 1 3 0
    (by decide) (by decide) rfl
  refine ⟨h.1, ?_⟩
  have h2 := h.2.2.1 0 (by decide)
  exact h2

/-- Claim C2, failing instance: on [1,2,3,4,5] with chunk 1..2 and
destination 4 the destination check of the claim holds, since
4 + 1 = 5 does not exceed the length 5, yet the code returns the
out of bounds Err because it compares against the suffix length
len - c0 = 4 instead of the slice length. -/
theorem C2_boundary_check_divergence :
    4 + ((2 : Nat) - 1) ≤ ([1,2,3,4,5] : List Nat).length ∧
    try_moveslice ([1,2,3,4,5] : List Nat) ⟨Bound.included 1, Bound.excluded 2⟩ 4 =
      MoveResult.err (beyondMsg 4 4 5) [1,2,3,4,5] ∧
    moveslice ([1,2,3,4,5] : List Nat) ⟨Bound.included 1, Bound.excluded 2⟩ 4 =
      MoveResult.fatal (beyondMsg 4 4 5) [1,2,3,4,5] :=
  ⟨by decide, rfl, rfl⟩

/-- Claim C3, failing instance: the crate documentation asserts that
moving chunk 3..6 of [1,4,5,6,2,3,7,8,9] to destination 6 yields
[1,4,5,7,8,9,6,2,3], but both variants fail the rightward bound check
because 6 + 3 = 9 exceeds the suffix length 9 - 3 = 6. -/
theorem C3_doctest_divergence :
    try_moveslice ([1,4,5,6,2,3,7,8,9] : List Nat) ⟨Bound.included 3, Bound.excluded 6⟩ 6 =
      MoveResult.err (beyondMsg 6 6 9) [1,4,5,6,2,3,7,8,9] ∧
    moveslice ([1,4,5,6,2,3,7,8,9] : List Nat) ⟨Bound.included 3, Bound.excluded 6⟩ 6 =
      MoveResult.fatal (beyondMsg 6 6 9) [1,4,5,6,2,3,7,8,9] :=
  ⟨rfl, rfl⟩

/-- Claim C4: on the leftward branch, for every well formed chunk the
call succeeds as the right rotation of the span from the destination to
the chunk end, in both variants; and when the chunk end exceeds the
length, both variants (the recoverable one included) end in the generic
split bounds fault rather than a typed Err. -/
theorem C4_leftward_branch (l : List T) (c0 c1 d : Nat) (hd : d < c0) (hc : c0 ≤ c1) :
    (c1 ≤ l.length →
      try_moveslice l ⟨Bound.included c0, Bound.excluded c1⟩ d = MoveResult.ok (l.take d ++
        (rotateRight ((l.drop d).take (c1 - d)) (c1 - c0) ++ (l.drop d).drop (c1 - d))) ∧
      moveslice l ⟨Bound.included c0, Bound.excluded c1⟩ d = MoveResult.ok (l.take d ++
        (rotateRight ((l.drop d).take (c1 - d)) (c1 - c0) ++ (l.drop d).drop (c1 - d)))) ∧
    (l.length < c1 →
      try_moveslice l ⟨Bound.included c0, Bound.excluded c1⟩ d =
        MoveResult.fatal splitFaultMsg l ∧
      moveslice l ⟨Bound.included c0, Bound.excluded c1⟩ d =
        MoveResult.fatal splitFaultMsg l) := by
  constructor
  · intro hn
    exact ⟨tryCore_left l c0 c1 d hd hc hn, panicCore_left l c0 c1 d hd hc hn⟩
  · intro hn
    exact ⟨tryCore_left_fault l c0 c1 d hd hn, panicCore_left_fault l c0 c1 d hd hn⟩

/-- Witness for C4: a concrete in bounds leftward move succeeds, and a
concrete chunk whose end exceeds the length raises the split fault in
the recoverable variant. -/
theorem C4_leftward_branch_witness :
    try_moveslice ([1,2,3,4] : List Nat) ⟨Bound.included 2, Bound.excluded 3⟩ 0 =
      MoveResult.ok [3,1,2,4] ∧
    try_moveslice ([1,2] : List Nat) ⟨Bound.included 1, Bound.excluded 3⟩ 0 =
      MoveResult.fatal splitFaultMsg [1,2] := by
  constructor
  · exact ((C4_leftward_branch ([1,2,3,4] : List Nat) 2 3 0 (by decide) (by decide)).1
      (by decide)).1
  · exact ((C4_leftward_branch ([1,2] : List Nat) 1 3 0 (by decide) (by decide)).2
      (by decide)).1

/-- Claim C5: with the destination equal to the chunk start, both
variants return success immediately and leave the sequence unchanged,
for every sequence and every chunk. -/
theorem C5_noop_identity (l : List T) (c0 c1 : Nat) :
    try_moveslice l ⟨Bound.included c0, Bound.excluded c1⟩ c0 = MoveResult.ok l ∧
    moveslice l ⟨Bound.included c0, Bound.excluded c1⟩ c0 = MoveResult.ok l :=
  ⟨tryCore_noop l c0 c1, panicCore_noop l c0 c1⟩

/-- Claim C6, failing instance: on [0,1,2,3,4] the chunk 4..5 moves to
destination 2 (a valid pair, both ends in bounds), but the move back of
the relocated chunk 2..3 to destination 4 is rejected by the rightward
bound check, leaving [0,1,4,2,3] instead of restoring the original. -/
theorem C6_round_trip_divergence :
    try_moveslice ([0,1,2,3,4] : List Nat) ⟨Bound.included 4, Bound.excluded 5⟩ 2 =
      MoveResult.ok [0,1,4,2,3] ∧
    try_moveslice ([0,1,4,2,3] : List Nat) ⟨Bound.included 2, Bound.excluded 3⟩ 4 =
      MoveResult.err (beyondMsg 3 4 5) [0,1,4,2,3] ∧
    ([0,1,4,2,3] : List Nat) ≠ [0,1,2,3,4] :=
  ⟨rfl, rfl, by decide⟩

/-- Claim C7: a range with no Included start bound fails with the
missing startbound error, an Included start with an Unbounded end fails
with the missing endbound error, both without mutating the sequence;
an Excluded end normalizes to the half open chunk and an Included end
to the half open chunk with end plus one. -/
theorem C7_missing_bound_rejection (l : List T) (d x y : Nat) (e : Bound) :
    try_moveslice l ⟨Bound.unbounded, e⟩ d = MoveResult.err startBoundMsg l ∧
    try_moveslice l ⟨Bound.excluded x, e⟩ d = MoveResult.err startBoundMsg l ∧
    try_moveslice l ⟨Bound.included x, Bound.unbounded⟩ d = MoveResult.err endBoundMsg l ∧
    try_moveslice l ⟨Bound.included x, Bound.excluded y⟩ d = tryCore l (x, y) d ∧
    try_moveslice l ⟨Bound.included x, Bound.included y⟩ d = tryCore l (x, y + 1) d :=
  ⟨rfl, rfl, rfl, rfl, rfl⟩

/-- Claim C8: whenever try_moveslice returns Err, the sequence carried
by the result is exactly the input sequence: every Err site is reached
before any element moves. -/
theorem C8_error_atomicity (l : List T) (b : RangeSpec) (d : Nat) (msg : String)
    (l2 : List T) (h : try_moveslice l b d = MoveResult.err msg l2) : l2 = l := by
  obtain ⟨sb, eb⟩ := b
  cases sb with
  | included x =>
    cases eb with
    | included y => exact tryCore_err_state l (x, y + 1) d msg l2 h
    | excluded y => exact tryCore_err_state l (x, y) d msg l2 h
    | unbounded =>
      injection h with h1 h2
      exact h2.symm
  | excluded x =>
    injection h with h1 h2
    exact h2.symm
  | unbounded =>
    injection h with h1 h2
    exact h2.symm

/-- Witness for C8 at a concrete erroring call: a range with no start
bound errors and the sequence is returned untouched. -/
theorem C8_error_atomicity_witness : ([1,2,3] : List Nat) = [1,2,3] :=
  C8_error_atomicity [1,2,3] ⟨Bound.unbounded, Bound.unbounded⟩ 0 startBoundMsg [1,2,3] rfl

/-- Claim C9: an Excluded start bound is conflated with an absent one:
try_moveslice returns the startbound Err and moveslice panics with the
same message, for every end bound, and the sequence is untouched. -/
theorem C9_excluded_start_conflated (l : List T) (x : Nat) (e : Bound) (d : Nat) :
    try_moveslice l ⟨Bound.excluded x, e⟩ d =
      MoveResult.err "A startbound is required." l ∧
    moveslice l ⟨Bound.excluded x, e⟩ d =
      MoveResult.fatal "A startbound is required." l :=
  ⟨rfl, rfl⟩

/-- Claim C10: when the destination equals the chunk start no
validation at all runs: for every pair of chunk bounds, in bounds or
not, and for both end bound forms, both variants return success with
the sequence unchanged. -/
theorem C10_noop_skips_validation (l : List T) (c0 c1 : Nat) :
    try_moveslice l ⟨Bound.included c0, Bound.excluded c1⟩ c0 = MoveResult.ok l ∧
    moveslice l ⟨Bound.included c0, Bound.excluded c1⟩ c0 = MoveResult.ok l ∧
    try_moveslice l ⟨Bound.included c0, Bound.included c1⟩ c0 = MoveResult.ok l ∧
    moveslice l ⟨Bound.included c0, Bound.included c1⟩ c0 = MoveResult.ok l :=
  ⟨tryCore_noop l c0 c1, panicCore_noop l c0 c1,
    tryCore_noop l c0 (c1 + 1), panicCore_noop l c0 (c1 + 1)⟩

end Moveslice
